import Mathlib

/-! Postmoogle: command dispatch entry point and service lifecycle.

A shallow embedding of `bot/message.go` (`Bot.handle`) and `cmd/cmd.go`
(`main`, the `init*` functions, `startBot`, `shutdown`, `recovery`).

Every call that leaves the embedded functions (a method of another file or
package, the logger, sentry, the Go runtime) is recorded as an event of a
trace, in the order in which the code performs it.
-/

namespace Postmoogle

/-! ## Go standard library: `unicode.IsSpace`, `strings.TrimSpace` -/

namespace unicode

/-- Go `unicode.IsSpace`: the Latin-1 switch, then the `White_Space` range table. -/
def IsSpace (r : Char) : Bool :=
  let c := r.toNat
  if c ≤ 0xFF then
    c == 0x09 || c == 0x0A || c == 0x0B || c == 0x0C || c == 0x0D || c == 0x20
      || c == 0x85 || c == 0xA0
  else
    c == 0x1680 || (0x2000 ≤ c && c ≤ 0x200A) || c == 0x2028 || c == 0x2029
      || c == 0x202F || c == 0x205F || c == 0x3000

end unicode

namespace strings

/-- Go `strings.TrimSpace`: the string without its leading and trailing white space,
as defined by `unicode.IsSpace`. -/
def TrimSpace (s : String) : String :=
  ⟨(s.data.dropWhile unicode.IsSpace).rdropWhile unicode.IsSpace⟩

end strings

/-! ## `bot/message.go` -/

namespace bot

/-- `id.RoomID` is a string type. -/
abbrev RoomID := String

/-- `id.UserID` is a string type. -/
abbrev UserID := String

/-- `event.MessageEventContent`; `handle` reads `Body` only. -/
structure MessageEventContent where
  Body : String
  deriving DecidableEq, Repr

/-- `event.Content`, seen through the one method `handle` calls on it: `AsMessage`
is the pointer that `Content.AsMessage()` returns, `none` for `nil`. -/
structure Content where
  AsMessage : Option MessageEventContent
  deriving DecidableEq, Repr

/-- `event.Event`. -/
structure Event where
  ID : String
  Sender : UserID
  RoomID : RoomID
  Content : Content
  deriving DecidableEq, Repr

/-- `context.Context` as `handle` receives it: it carries the event being handled. -/
structure Context where
  evt : Event
  deriving DecidableEq, Repr

/-- `eventFromContext(ctx)`. -/
def eventFromContext (ctx : Context) : Event := ctx.evt

/-- A call that `handle` makes on the bot, with its arguments. -/
inductive Call (Cmd : Type) where
  | Error (ctx : Context) (roomID : RoomID) (message : String)
  | parseCommand (message : String) (toLower : Bool)
  | handleCommand (ctx : Context) (evt : Event) (cmd : Cmd)
  deriving DecidableEq, Repr

namespace Call

variable {Cmd : Type}

/-- An error reply, `b.Error`. -/
def isError : Call Cmd → Bool
  | .Error _ _ _ => true
  | _ => false

/-- A call of `b.parseCommand`. -/
def isParseCommand : Call Cmd → Bool
  | .parseCommand _ _ => true
  | _ => false

/-- A call of `b.handleCommand`. -/
def isHandleCommand : Call Cmd → Bool
  | .handleCommand _ _ _ => true
  | _ => false

/-- The room and text of an error reply. -/
def reply? : Call Cmd → Option (RoomID × String)
  | .Error _ roomID message => some (roomID, message)
  | _ => none

end Call

/-- The part of `*Bot` that decides what `handle` does: the result of
`b.parseCommand`, `none` for `nil`. The command type is the one of the bot. -/
structure Bot (Cmd : Type) where
  parseCommand : String → Bool → Option Cmd

/-- `func (b *Bot) handle(ctx context.Context)`: the calls it makes, in order. -/
def Bot.handle {Cmd : Type} (b : Bot Cmd) (ctx : Context) : List (Call Cmd) :=
  let evt := eventFromContext ctx
  match evt.Content.AsMessage with
  | none => [Call.Error ctx evt.RoomID "cannot read message"]
  | some content =>
    let message := strings.TrimSpace content.Body
    match b.parseCommand message true with
    | none => [Call.parseCommand message true]
    | some cmd => [Call.parseCommand message true, Call.handleCommand ctx evt cmd]

/-- A bot for the examples: it knows the one command "!pm help". -/
def sampleBot : Bot (List String) :=
  ⟨fun message _ => if message = "!pm help" then some ["help"] else none⟩

/-- An image sent into a room: its content is not a message. -/
def imageCtx : Context :=
  ⟨{ ID := "$1", Sender := "@alice:example.com", RoomID := "!ops:example.com",
     Content := ⟨none⟩ }⟩

/-- Ordinary conversation. -/
def chatCtx : Context :=
  ⟨{ ID := "$2", Sender := "@alice:example.com", RoomID := "!ops:example.com",
     Content := ⟨some ⟨"  good morning \n"⟩⟩ }⟩

/-- A command with white space around it. -/
def helpCtx : Context :=
  ⟨{ ID := "$3", Sender := "@alice:example.com", RoomID := "!ops:example.com",
     Content := ⟨some ⟨" \t!pm help \n"⟩⟩ }⟩

end bot

/-! ## Go runtime and libraries, as far as `cmd/cmd.go` uses them -/

namespace syscall

/-- Signal numbers of `syscall` (Linux), 1 to 15. -/
inductive Signal where
  | SIGHUP | SIGINT | SIGQUIT | SIGILL | SIGTRAP | SIGABRT | SIGBUS | SIGFPE
  | SIGKILL | SIGUSR1 | SIGSEGV | SIGUSR2 | SIGPIPE | SIGALRM | SIGTERM
  deriving DecidableEq, Repr

end syscall

namespace os

/-- Go `os.Interrupt`, which is `syscall.SIGINT`. -/
def Interrupt : syscall.Signal := syscall.Signal.SIGINT

end os

namespace time

/-- Go `time.Duration`, in nanoseconds. -/
abbrev Duration := Nat

/-- Go `time.Second`. -/
def Second : Duration := 1000000000

end time

namespace config

/-- DB config (`config/types.go`). -/
structure DB where
  DSN : String
  Dialect : String
  deriving DecidableEq, Repr

/-- TLS config (`config/types.go`). -/
structure TLS where
  Cert : String
  Key : String
  Port : String
  Required : Bool
  deriving DecidableEq, Repr

/-- Sentry config (`config/types.go`). -/
structure Sentry where
  DSN : String
  deriving DecidableEq, Repr

/-- Config of Postmoogle (`config/types.go`). -/
structure Config where
  Homeserver : String
  Login : String
  Password : String
  Domain : String
  Port : String
  LogLevel : String
  NoEncryption : Bool
  Prefix : String
  MaxSize : Int
  StatusMsg : String
  Admins : List String
  DB : DB
  TLS : TLS
  Sentry : Sentry
  deriving DecidableEq, Repr

end config

namespace cmd

open syscall (Signal)

/-- A Go `error` value, by its text. -/
abbrev Error := String

/-- The value of a panic: the one `log.Fatal` raises for its message, or any other. -/
inductive PanicValue where
  | fatal (format : String) (args : List String)
  | value (v : String)
  deriving DecidableEq, Repr

/-- The goroutines of the process. -/
inductive Goroutine where
  | main
  | listener
  | startBot
  deriving DecidableEq, Repr

/-- The `lpcfg.Config` literal of `initBot` (without the logger and database handles). -/
structure LinkpearlConfig where
  Homeserver : String
  Login : String
  Password : String
  Dialect : String
  NoEncryption : Bool
  deriving DecidableEq, Repr

/-- The `smtp.Config` literal of `initSMTP` (without the bot handle). -/
structure SmtpConfig where
  Domain : String
  Port : String
  TLSCert : String
  TLSKey : String
  TLSPort : String
  TLSRequired : Bool
  LogLevel : String
  MaxSize : Int
  deriving DecidableEq, Repr

/-- What the process does that can be observed from outside `cmd.go`. -/
inductive Ev where
  | logInfo (message : String)
  | logDebug (format : String) (args : List String)
  | logFatal (format : String) (args : List String)
  | sentryInit (dsn : String)
  | sqlOpen (dialect : String) (dsn : String)
  | linkpearlNew (cfg : LinkpearlConfig)
  | botNew (pfx : String) (domain : String) (admins : List String)
  | smtpNewServer (cfg : SmtpConfig)
  | signalNotify (sigs : List Signal)
  | go (g : Goroutine)
  | recvSignal (s : Signal)
  | botStart (statusMsg : String)
  | smtpStart
  | smtpStop
  | botStop
  | sentryFlush (timeout : time.Duration)
  | sentryRecover (err : Option PanicValue)
  | closeQuit
  | osExit (code : Int)
  | crash (v : PanicValue)
  deriving DecidableEq, Repr

/-- How a blocking call of a service ends: it returns (an error or `nil`), it panics,
or it does not return while the process lives. -/
inductive CallResult where
  | returns (err : Option Error)
  | panics (v : String)
  | blocks
  deriving DecidableEq, Repr

/-- The environment of one run: the configuration that `config.New` reads, what each
fallible call answers, and the signal the process is sent, if any. -/
structure World where
  cfg : config.Config
  sentryInit : Option Error
  sqlOpen : Option Error
  linkpearlNew : Option Error
  botNew : Option Error
  botStart : CallResult
  smtpStart : CallResult
  signal : Option Signal
  deriving DecidableEq, Repr

/-- How the execution of a piece of code ends. -/
inductive Res (α : Type) where
  | ok (a : α)
  | panicking (v : PanicValue)
  | exited (code : Int)
  | blocked
  deriving DecidableEq, Repr

/-- An execution on one goroutine: the events it performed and how it ended. -/
structure Exec (α : Type) where
  trace : List Ev
  res : Res α
  deriving DecidableEq, Repr

namespace Exec

/-- Sequencing: what follows runs only if the first part ended normally. -/
def bind {α β : Type} (x : Exec α) (f : α → Exec β) : Exec β :=
  match x.res with
  | .ok a => ⟨x.trace ++ (f a).trace, (f a).res⟩
  | .panicking v => ⟨x.trace, .panicking v⟩
  | .exited c => ⟨x.trace, .exited c⟩
  | .blocked => ⟨x.trace, .blocked⟩

instance : Monad Exec where
  pure a := ⟨[], .ok a⟩
  bind := bind

/-- One observable event. -/
def emit (e : Ev) : Exec Unit := ⟨[e], .ok ()⟩

/-- A call that returns a value after being observed. -/
def call {α : Type} (e : Ev) (a : α) : Exec α := ⟨[e], .ok a⟩

/-- Go `panic(v)`. -/
def panic {α : Type} (v : PanicValue) : Exec α := ⟨[], .panicking v⟩

/-- A receive on a channel that nobody sends to or closes. -/
def block {α : Type} : Exec α := ⟨[], .blocked⟩

/-- A deferred call: what it does given the value `recover()` would return in it, and
whether it calls `recover()`. -/
structure Deferred where
  run : Option PanicValue → Exec Unit
  recovers : Bool

/-- Go `defer d(); body`: the deferred call runs when the body returns or panics, and
does not run when the process exits or the body never ends. A panic goes on after the
deferred call unless that call recovered it. -/
def deferring (d : Deferred) (body : Exec Unit) : Exec Unit :=
  match body.res with
  | .ok _ => ⟨body.trace ++ (d.run none).trace, (d.run none).res⟩
  | .panicking v =>
    match (d.run (some v)).res with
    | .ok _ =>
      ⟨body.trace ++ (d.run (some v)).trace, if d.recovers then .ok () else .panicking v⟩
    | r => ⟨body.trace ++ (d.run (some v)).trace, r⟩
  | .exited c => ⟨body.trace, .exited c⟩
  | .blocked => ⟨body.trace, .blocked⟩

end Exec

open Exec (emit call deferring)

/-! ### External calls -/

/-- `log.Info(message)`. -/
def log.Info (message : String) : Exec Unit := emit (.logInfo message)

/-- `log.Debug(format, args...)`. -/
def log.Debug (format : String) (args : List String) : Exec Unit :=
  emit (.logDebug format args)

/-- `log.Fatal(format, args...)`: it logs and panics ("Fatal = panic, not os.Exit()"). -/
def log.Fatal (format : String) (args : List String) : Exec Unit := do
  emit (.logFatal format args)
  Exec.panic (.fatal format args)

/-- `os.Exit(code)`. -/
def os.Exit (code : Int) : Exec Unit := ⟨[.osExit code], .exited code⟩

/-- A blocking call of a service, observed as `e`. -/
def CallResult.exec (e : Ev) : CallResult → Exec (Option Error)
  | .returns err => ⟨[e], .ok err⟩
  | .panics v => ⟨[e], .panicking (.value v)⟩
  | .blocks => ⟨[e], .blocked⟩

/-- The signals handed to `signal.Notify` in `initShutdown`, as written. -/
def notifySignals : List Signal :=
  [os.Interrupt, .SIGABRT, .SIGHUP, .SIGINT, .SIGQUIT, .SIGTERM]

/-! ### `cmd/cmd.go` -/

/-- `func shutdown()`. -/
def shutdown : Exec Unit := do
  log.Info "Shutting down..."
  emit .smtpStop
  emit .botStop
  emit (.sentryFlush (5 * time.Second))
  log.Info "Postmoogle has been stopped"
  os.Exit 0

/-- `func recovery()`; `recovered` is what `recover()` returns in it. -/
def recovery (recovered : Option PanicValue) : Exec Unit :=
  deferring ⟨fun _ => shutdown, false⟩ do
    let err := recovered
    -- no problem just shutdown
    if err = none then
      emit (.sentryRecover err)

/-- `func initSentry(cfg)`. -/
def initSentry (w : World) (cfg : config.Config) : Exec Unit := do
  let err ← call (.sentryInit cfg.Sentry.DSN) w.sentryInit
  if let some e := err then
    log.Fatal "cannot initialize sentry: %v" [e]

/-- `func initBot(cfg)`. -/
def initBot (w : World) (cfg : config.Config) : Exec Unit := do
  let err ← call (.sqlOpen cfg.DB.Dialect cfg.DB.DSN) w.sqlOpen
  if let some e := err then
    log.Fatal "cannot initialize SQL database: %v" [e]
  let err ← call (.linkpearlNew
    { Homeserver := cfg.Homeserver
      Login := cfg.Login
      Password := cfg.Password
      Dialect := cfg.DB.Dialect
      NoEncryption := cfg.NoEncryption }) w.linkpearlNew
  if let some e := err then
    log.Fatal "cannot initialize matrix bot: %v" [e]
  let err ← call (.botNew cfg.Prefix cfg.Domain cfg.Admins) w.botNew
  if let some e := err then
    log.Fatal "cannot start matrix bot: %v" [e]
  log.Debug "bot has been created" []

/-- `func initSMTP(cfg)`. -/
def initSMTP (cfg : config.Config) : Exec Unit :=
  emit (.smtpNewServer
    { Domain := cfg.Domain
      Port := cfg.Port
      TLSCert := cfg.TLS.Cert
      TLSKey := cfg.TLS.Key
      TLSPort := cfg.TLS.Port
      TLSRequired := cfg.TLS.Required
      LogLevel := cfg.LogLevel
      MaxSize := cfg.MaxSize })

/-- The goroutine launched by `initShutdown`, from the moment the signal `s` arrives
on `listener`. `os.Exit` in `shutdown` ends the process, so `close(quit)` is not reached. -/
def initShutdown.func1 (s : Signal) : Exec Unit := do
  emit (.recvSignal s)
  deferring ⟨fun _ => emit .closeQuit, false⟩ shutdown

/-- `func initShutdown(quit)`. -/
def initShutdown : Exec Unit := do
  emit (.signalNotify notifySignals)
  emit (.go .listener)

/-- `func startBot(statusMsg)`. -/
def startBot (w : World) (statusMsg : String) : Exec Unit := do
  log.Debug "starting matrix bot: %s..." [statusMsg]
  let err ← w.botStart.exec (.botStart statusMsg)
  if let some e := err then
    log.Fatal "cannot start the bot: %v" [e]

/-- `func main()`. The channel `quit` is closed by the listener goroutine only after
`shutdown` returns, which it never does, so the final receive does not complete. -/
def main (w : World) : Exec Unit := do
  let cfg := w.cfg
  log.Info "#############################"
  log.Info "Postmoogle"
  log.Info "Matrix: true"
  log.Info "#############################"
  log.Debug "starting internal components..." []
  initSentry w cfg
  initBot w cfg
  initSMTP cfg
  initShutdown
  deferring ⟨recovery, true⟩ do
    emit (.go .startBot)
    let err ← w.smtpStart.exec .smtpStart
    if let some e := err then
      log.Fatal "SMTP server crashed: %v" [e]
    Exec.block

/-! ### Reading a trace -/

namespace Ev

/-- The steps of the stop sequence: stopping the two services, the flush, the exit. -/
def isShutdownStep : Ev → Bool
  | .smtpStop => true
  | .botStop => true
  | .sentryFlush _ => true
  | .osExit _ => true
  | _ => false

/-- A captured error handed to sentry. -/
def isSentryRecover : Ev → Bool
  | .sentryRecover _ => true
  | _ => false

/-- The Mail Service is stopped. -/
def isSmtpStop : Ev → Bool
  | .smtpStop => true
  | _ => false

/-- The Chat Client is stopped. -/
def isBotStop : Ev → Bool
  | .botStop => true
  | _ => false

/-- Telemetry is flushed. -/
def isSentryFlush : Ev → Bool
  | .sentryFlush _ => true
  | _ => false

/-- A call of `os.Exit`. -/
def isOsExit : Ev → Bool
  | .osExit _ => true
  | _ => false

/-- The start call of one of the two services. -/
def isStart : Ev → Bool
  | .botStart _ => true
  | .smtpStart => true
  | _ => false

/-- What an initialisation failure must leave undone: building the Mail Service,
registering the signal listener, launching a goroutine, starting a service. -/
def isLaterStep : Ev → Bool
  | .smtpNewServer _ => true
  | .signalNotify _ => true
  | .go _ => true
  | .recvSignal _ => true
  | .botStart _ => true
  | .smtpStart => true
  | _ => false

/-- The events after which the process no longer runs, with the exit status: a call of
`os.Exit`, or the crash of an unrecovered panic (status 2). -/
def exitStatus? : Ev → Option Int
  | .osExit code => some code
  | .crash _ => some 2
  | _ => none

/-- The goroutine that the event launches, for a `go` statement. -/
def launches? : Ev → Option Goroutine
  | .go g => some g
  | _ => none

end Ev

/-- The lines that `main` logs before it initialises anything. -/
def banner : List Ev :=
  [.logInfo "#############################", .logInfo "Postmoogle", .logInfo "Matrix: true",
   .logInfo "#############################", .logDebug "starting internal components..." []]

/-- The calls of a successful initialisation, in the order `main` makes them, up to the
launch of the goroutine that starts the Chat Client. -/
def startup (cfg : config.Config) : List Ev :=
  [.sentryInit cfg.Sentry.DSN,
   .sqlOpen cfg.DB.Dialect cfg.DB.DSN,
   .linkpearlNew
     { Homeserver := cfg.Homeserver
       Login := cfg.Login
       Password := cfg.Password
       Dialect := cfg.DB.Dialect
       NoEncryption := cfg.NoEncryption },
   .botNew cfg.Prefix cfg.Domain cfg.Admins,
   .logDebug "bot has been created" [],
   .smtpNewServer
     { Domain := cfg.Domain
       Port := cfg.Port
       TLSCert := cfg.TLS.Cert
       TLSKey := cfg.TLS.Key
       TLSPort := cfg.TLS.Port
       TLSRequired := cfg.TLS.Required
       LogLevel := cfg.LogLevel
       MaxSize := cfg.MaxSize },
   .signalNotify notifySignals,
   .go .listener,
   .go .startBot]

/-- A configuration for the examples. -/
def sampleConfig : config.Config :=
  { Homeserver := "https://matrix.example.com"
    Login := "postmoogle"
    Password := "secret"
    Domain := "example.com"
    Port := "25"
    LogLevel := "INFO"
    NoEncryption := false
    Prefix := "!pm"
    MaxSize := 1024
    StatusMsg := "Delivering emails"
    Admins := []
    DB := { DSN := "/tmp/postmoogle.db", Dialect := "sqlite3" }
    TLS := { Cert := "", Key := "", Port := "587", Required := false }
    Sentry := { DSN := "" } }

/-- A run in which everything is built and both services keep running. -/
def sampleWorld : World :=
  { cfg := sampleConfig
    sentryInit := none
    sqlOpen := none
    linkpearlNew := none
    botNew := none
    botStart := .blocks
    smtpStart := .blocks
    signal := none }

/-! ### The process: goroutines interleaved by a schedule -/

/-- What a goroutine contributes to the trace of the process: its events and, when it
ends in a panic that nothing recovered, the crash of the process. -/
def Exec.events (x : Exec Unit) : List Ev :=
  match x.res with
  | .panicking v => x.trace ++ [.crash v]
  | _ => x.trace

/-- The events of each goroutine in program order. The listener goroutine gets past its
receive only for a signal that `signal.Notify` relays to its channel. -/
def program (w : World) : Goroutine → List Ev
  | .main => (main w).events
  | .listener =>
    match w.signal with
    | some s => if s ∈ notifySignals then (initShutdown.func1 s).events else []
    | none => []
  | .startBot => (startBot w w.cfg.StatusMsg).events

/-- A process: what each goroutine has still to do, and what has happened so far, each
event with the goroutine that performed it. -/
structure Proc where
  todo : Goroutine → List Ev
  trace : List (Goroutine × Ev)

namespace Proc

/-- The trace without the goroutine tags. -/
def events (p : Proc) : List Ev := p.trace.map Prod.snd

/-- The process has exited or crashed. -/
def terminated (p : Proc) : Bool := p.events.any fun e => e.exitStatus?.isSome

/-- The goroutine exists: `main` from the beginning, another one after its `go` statement. -/
def launched (p : Proc) (g : Goroutine) : Bool :=
  g = .main || p.events.any fun e => e.launches? = some g

/-- The scheduler lets goroutine `g` perform its next event, if the process lives, the
goroutine exists and it has something to do. -/
def step (p : Proc) (g : Goroutine) : Proc :=
  if p.terminated then p
  else if p.launched g then
    match p.todo g with
    | [] => p
    | e :: rest => ⟨Function.update p.todo g rest, p.trace ++ [(g, e)]⟩
  else p

/-- The process after the scheduler has picked the goroutines of `sched`, in turn. -/
def run (p : Proc) (sched : List Goroutine) : Proc := sched.foldl step p

/-- The events of goroutine `g` in a tagged trace, in order. -/
def doneOf (tr : List (Goroutine × Ev)) (g : Goroutine) : List Ev :=
  (tr.filter fun x => x.1 = g).map Prod.snd

/-- What goroutine `g` has done so far. -/
def done (p : Proc) (g : Goroutine) : List Ev := doneOf p.trace g

/-- A tagged trace interleaves the programs `T`: whenever a goroutine performs an event,
the process is alive, the goroutine has been launched, and the event is the next one of
its program. -/
def Interleaving (T : Goroutine → List Ev) (tr : List (Goroutine × Ev)) : Prop :=
  ∀ pre g e post, tr = pre ++ (g, e) :: post →
    (∀ x ∈ pre, x.2.exitStatus? = none)
    ∧ (g = .main ∨ ∃ x ∈ pre, x.2 = .go g)
    ∧ ∃ rest, doneOf pre g ++ e :: rest = T g

/-- The state of a process agrees with the programs `T` it was started with. -/
structure Sound (T : Goroutine → List Ev) (p : Proc) : Prop where
  inter : Interleaving T p.trace
  split : ∀ g, doneOf p.trace g ++ p.todo g = T g

end Proc

/-- The process of `cmd.go` in the world `w`, run under the schedule `sched`. -/
def run (w : World) (sched : List Goroutine) : Proc :=
  Proc.run ⟨program w, []⟩ sched

/-- The goroutine `g` calls `shutdown` in the world `w`: it is a trigger that fires. -/
def fires (w : World) (g : Goroutine) : Bool := (program w g).any Ev.isOsExit

/-- The number of shutdown triggers that fire in the world `w`. -/
def triggers (w : World) : Nat :=
  [Goroutine.main, Goroutine.listener, Goroutine.startBot].countP (fires w)

/-- The Mail Service refuses to start. -/
def smtpFailsWorld : World :=
  { sampleWorld with smtpStart := .returns (some "listen tcp :25: bind: address already in use") }

/-- The Mail Service refuses to start, and a termination signal arrives while `main` is
shutting down. -/
def signalledWorld : World :=
  { smtpFailsWorld with signal := some .SIGTERM }

/-- The schedule of that run: `main` up to the return of `smtpserv.Start()`, then
through `recovery` into `shutdown` up to the flush of sentry; the listener from the
receipt of the signal up to its own flush; and `main` to the end. -/
def signalledSchedule : List Goroutine :=
  List.replicate 15 .main ++ List.replicate 5 .main ++ List.replicate 5 .listener
    ++ List.replicate 2 .main

/-- The Mail Service panics while serving. -/
def panicWorld : World :=
  { sampleWorld with smtpStart := .panics "runtime error: invalid memory address" }

/-- The schedule of a signal that arrives once `main` has launched both goroutines:
`main` up to `go startBot`, then the listener to the end. -/
def signalSchedule : List Goroutine :=
  List.replicate 14 .main ++ List.replicate 7 .listener

/-- The database cannot be opened. -/
def sqlFailsWorld : World :=
  { sampleWorld with sqlOpen := some "unable to open database file" }

/-- A schedule in which `main` reaches `smtpserv.Start()` before the goroutine of
`startBot` runs. -/
def mailFirstSchedule : List Goroutine :=
  List.replicate 15 .main ++ List.replicate 2 .startBot

end cmd

/-! ## Lemmas on `strings.TrimSpace` -/

namespace strings

theorem rdropWhile_append_rtakeWhile {α : Type} (p : α → Bool) (l : List α) :
    l.rdropWhile p ++ l.rtakeWhile p = l := by
  unfold List.rdropWhile List.rtakeWhile
  rw [← List.reverse_append, List.takeWhile_append_dropWhile, List.reverse_reverse]

theorem head_rdropWhile_dropWhile {α : Type} (p : α → Bool) (l : List α) (c : α)
    (h : ((l.dropWhile p).rdropWhile p).head? = some c) : p c = false := by
  obtain ⟨t, ht⟩ := List.rdropWhile_prefix p (l := l.dropWhile p)
  cases hd : (l.dropWhile p).rdropWhile p with
  | nil => simp [hd] at h
  | cons a as =>
    rw [hd] at h ht
    simp only [List.head?_cons, Option.some.injEq] at h
    subst h
    have hne : l.dropWhile p ≠ [] := by
      rw [← ht]; simp
    have h0 := List.head_dropWhile_not p l hne
    have : (l.dropWhile p).head hne = a := by
      simp [← ht]
    rw [this] at h0
    exact h0

theorem getLast_rdropWhile {α : Type} (p : α → Bool) (l : List α) (c : α)
    (h : (l.rdropWhile p).getLast? = some c) : p c = false := by
  cases hd : l.rdropWhile p with
  | nil => simp [hd] at h
  | cons a as =>
    have hne : l.rdropWhile p ≠ [] := by simp [hd]
    have h0 := List.rdropWhile_last_not p l hne
    rw [List.getLast?_eq_getLast _ hne] at h
    simp only [Option.some.injEq] at h
    rw [h] at h0
    simpa using h0

/-- `TrimSpace s` is `s` without a leading and a trailing run of white space, and it
neither starts nor ends with white space. -/
theorem TrimSpace_spec (s : String) :
    (∃ pre post : List Char,
        s.data = pre ++ (TrimSpace s).data ++ post
        ∧ (∀ c ∈ pre, unicode.IsSpace c = true) ∧ (∀ c ∈ post, unicode.IsSpace c = true))
    ∧ (∀ c, (TrimSpace s).data.head? = some c → unicode.IsSpace c = false)
    ∧ (∀ c, (TrimSpace s).data.getLast? = some c → unicode.IsSpace c = false) := by
  refine ⟨⟨s.data.takeWhile unicode.IsSpace,
      (s.data.dropWhile unicode.IsSpace).rtakeWhile unicode.IsSpace, ?_, ?_, ?_⟩, ?_, ?_⟩
  · simp only [TrimSpace]
    rw [List.append_assoc, rdropWhile_append_rtakeWhile, List.takeWhile_append_dropWhile]
  · intro c hc
    exact List.mem_takeWhile_imp hc
  · intro c hc
    exact List.mem_rtakeWhile_imp hc
  · intro c hc
    exact head_rdropWhile_dropWhile _ _ c hc
  · intro c hc
    exact getLast_rdropWhile _ _ c hc

end strings

/-! ## Theorems on `Bot.handle` -/

namespace bot

variable {Cmd : Type}

/-- C1: for an event whose content is not a textual message (`AsMessage` is `nil`),
`handle` makes exactly one call, the error reply "cannot read message" into the room
of that event; no other room is addressed and neither `parseCommand` nor
`handleCommand` is called. -/
theorem handle_not_message (b : Bot Cmd) (ctx : Context)
    (h : (eventFromContext ctx).Content.AsMessage = none) :
    b.handle ctx = [Call.Error ctx (eventFromContext ctx).RoomID "cannot read message"]
    ∧ (b.handle ctx).filterMap Call.reply?
        = [((eventFromContext ctx).RoomID, "cannot read message")]
    ∧ (b.handle ctx).countP Call.isError = 1
    ∧ (∀ c ∈ b.handle ctx, ∀ room text, c.reply? = some (room, text) →
        room = (eventFromContext ctx).RoomID)
    ∧ (b.handle ctx).countP Call.isParseCommand = 0
    ∧ (b.handle ctx).countP Call.isHandleCommand = 0 := by
  have hh : b.handle ctx
      = [Call.Error ctx (eventFromContext ctx).RoomID "cannot read message"] := by
    simp only [Bot.handle, h]
  rw [hh]
  refine ⟨rfl, rfl, rfl, ?_, rfl, rfl⟩
  intro c hc room text hr
  simp only [List.mem_singleton] at hc
  subst hc
  simp only [Call.reply?, Option.some.injEq, Prod.mk.injEq] at hr
  exact hr.1.symm

/-- An image sent into a room is answered with the one error reply. -/
theorem handle_not_message_witness :
    sampleBot.handle imageCtx
        = [Call.Error imageCtx "!ops:example.com" "cannot read message"]
    ∧ (sampleBot.handle imageCtx).countP Call.isError = 1 :=
  have h := handle_not_message sampleBot imageCtx rfl
  ⟨h.1, h.2.2.1⟩

/-- C2: for a textual event, `handle` calls `handleCommand` at most once; it calls it
exactly once, with the original event and the command that `parseCommand` returned
for the trimmed body, if and only if that result is not `nil`; then `handle` sends no
error reply. The trimmed body is the body without surrounding white space. -/
theorem handle_message (b : Bot Cmd) (ctx : Context) (content : MessageEventContent)
    (h : (eventFromContext ctx).Content.AsMessage = some content) :
    (b.handle ctx).countP Call.isHandleCommand ≤ 1
    ∧ (b.handle ctx).filter Call.isParseCommand
        = [Call.parseCommand (strings.TrimSpace content.Body) true]
    ∧ (∀ cmd, b.parseCommand (strings.TrimSpace content.Body) true = some cmd →
        (b.handle ctx).filter Call.isHandleCommand
            = [Call.handleCommand ctx (eventFromContext ctx) cmd]
          ∧ (b.handle ctx).countP Call.isError = 0)
    ∧ ((b.handle ctx).countP Call.isHandleCommand = 1
        ↔ b.parseCommand (strings.TrimSpace content.Body) true ≠ none)
    ∧ (∃ pre post : List Char,
        content.Body.data = pre ++ (strings.TrimSpace content.Body).data ++ post
        ∧ (∀ c ∈ pre, unicode.IsSpace c = true) ∧ (∀ c ∈ post, unicode.IsSpace c = true))
    ∧ (∀ c, (strings.TrimSpace content.Body).data.head? = some c →
        unicode.IsSpace c = false)
    ∧ (∀ c, (strings.TrimSpace content.Body).data.getLast? = some c →
        unicode.IsSpace c = false) := by
  obtain ⟨t1, t2, t3⟩ := strings.TrimSpace_spec content.Body
  refine ⟨?_, ?_, ?_, ?_, t1, t2, t3⟩
  · cases hp : b.parseCommand (strings.TrimSpace content.Body) true <;>
      simp [Bot.handle, h, hp, Call.isHandleCommand]
  · cases hp : b.parseCommand (strings.TrimSpace content.Body) true <;>
      simp [Bot.handle, h, hp, Call.isParseCommand]
  · intro cmd hp
    simp [Bot.handle, h, hp, Call.isHandleCommand, Call.isError]
  · cases hp : b.parseCommand (strings.TrimSpace content.Body) true <;>
      simp [Bot.handle, h, hp, Call.isHandleCommand]

/-- The command "!pm help" with white space around it is dispatched once. -/
theorem handle_message_witness :
    (sampleBot.handle helpCtx).filter Call.isHandleCommand
        = [Call.handleCommand helpCtx helpCtx.evt ["help"]]
    ∧ (sampleBot.handle helpCtx).countP Call.isError = 0 :=
  (handle_message sampleBot helpCtx ⟨" \t!pm help \n"⟩ rfl).2.2.1 ["help"] (by decide)

/-- C3: for a textual event whose trimmed body parses to no command, `handle` does
nothing besides the parse itself: no reply into any room, no error, no call of
`handleCommand`. -/
theorem handle_no_command (b : Bot Cmd) (ctx : Context) (content : MessageEventContent)
    (h : (eventFromContext ctx).Content.AsMessage = some content)
    (hp : b.parseCommand (strings.TrimSpace content.Body) true = none) :
    b.handle ctx = [Call.parseCommand (strings.TrimSpace content.Body) true]
    ∧ (b.handle ctx).filterMap Call.reply? = []
    ∧ (b.handle ctx).countP Call.isError = 0
    ∧ (b.handle ctx).countP Call.isHandleCommand = 0 := by
  have hh : b.handle ctx = [Call.parseCommand (strings.TrimSpace content.Body) true] := by
    simp only [Bot.handle, h, hp]
  rw [hh]
  exact ⟨rfl, rfl, rfl, rfl⟩

/-- Ordinary conversation is parsed and then ignored. -/
theorem handle_no_command_witness :
    sampleBot.handle chatCtx = [Call.parseCommand "good morning" true]
    ∧ (sampleBot.handle chatCtx).filterMap Call.reply? = [] :=
  have h := handle_no_command sampleBot chatCtx ⟨"  good morning \n"⟩ rfl (by decide)
  ⟨h.1.trans (by decide), h.2.1⟩

end bot

/-! ## Theorems on `cmd/cmd.go`: one goroutine at a time -/

namespace cmd

open syscall (Signal)

theorem shutdown_trace :
    shutdown.trace
      = [.logInfo "Shutting down...", .smtpStop, .botStop, .sentryFlush (5 * time.Second),
         .logInfo "Postmoogle has been stopped", .osExit 0] := rfl

theorem shutdown_res : shutdown.res = .exited 0 := rfl

theorem recovery_none :
    recovery none = ⟨.sentryRecover none :: shutdown.trace, .exited 0⟩ := rfl

theorem recovery_some (v : PanicValue) :
    recovery (some v) = ⟨shutdown.trace, .exited 0⟩ := by
  simp [recovery, Exec.deferring, shutdown_res]
  rfl

theorem func1_eq (s : Signal) :
    initShutdown.func1 s = ⟨.recvSignal s :: shutdown.trace, .exited 0⟩ := rfl

theorem main_sentry_fails (w : World) (e : Error) (h : w.sentryInit = some e) :
    main w = ⟨banner ++ [.sentryInit w.cfg.Sentry.DSN, .logFatal "cannot initialize sentry: %v" [e]],
      .panicking (.fatal "cannot initialize sentry: %v" [e])⟩ := by
  cases w
  simp only at h
  subst h
  rfl

theorem main_sql_fails (w : World) (e : Error) (h0 : w.sentryInit = none)
    (h : w.sqlOpen = some e) :
    main w = ⟨banner ++ (startup w.cfg).take 2 ++ [.logFatal "cannot initialize SQL database: %v" [e]],
      .panicking (.fatal "cannot initialize SQL database: %v" [e])⟩ := by
  cases w
  simp only at h h0
  subst h h0
  rfl

theorem main_linkpearl_fails (w : World) (e : Error) (h0 : w.sentryInit = none)
    (h1 : w.sqlOpen = none) (h : w.linkpearlNew = some e) :
    main w = ⟨banner ++ (startup w.cfg).take 3 ++ [.logFatal "cannot initialize matrix bot: %v" [e]],
      .panicking (.fatal "cannot initialize matrix bot: %v" [e])⟩ := by
  cases w
  simp only at h h0 h1
  subst h h0 h1
  rfl

theorem main_bot_fails (w : World) (e : Error) (h0 : w.sentryInit = none)
    (h1 : w.sqlOpen = none) (h2 : w.linkpearlNew = none) (h : w.botNew = some e) :
    main w = ⟨banner ++ (startup w.cfg).take 4 ++ [.logFatal "cannot start matrix bot: %v" [e]],
      .panicking (.fatal "cannot start matrix bot: %v" [e])⟩ := by
  cases w
  simp only at h h0 h1 h2
  subst h h0 h1 h2
  rfl

/-- The run of `main` once everything has been built, by what `smtpserv.Start()` does. -/
theorem main_started (w : World) (h0 : w.sentryInit = none) (h1 : w.sqlOpen = none)
    (h2 : w.linkpearlNew = none) (h3 : w.botNew = none) :
    main w = match w.smtpStart with
      | .returns none => ⟨banner ++ startup w.cfg ++ [.smtpStart], .blocked⟩
      | .returns (some e) =>
        ⟨banner ++ startup w.cfg ++ [.smtpStart, .logFatal "SMTP server crashed: %v" [e]]
          ++ shutdown.trace, .exited 0⟩
      | .panics _ => ⟨banner ++ startup w.cfg ++ [.smtpStart] ++ shutdown.trace, .exited 0⟩
      | .blocks => ⟨banner ++ startup w.cfg ++ [.smtpStart], .blocked⟩ := by
  cases w with
  | mk cfg a b c d bs ss sg =>
    simp only at h0 h1 h2 h3
    subst h0 h1 h2 h3
    cases ss with
    | returns err =>
      cases err with
      | none => rfl
      | some e => rfl
    | panics v => rfl
    | blocks => rfl

/-- The function `main` never returns: it ends in a panic, in `os.Exit`, or blocked. -/
theorem main_never_returns (w : World) : (main w).res ≠ .ok () := by
  rcases Option.eq_none_or_eq_some w.sentryInit with h0 | ⟨e, h0⟩
  · rcases Option.eq_none_or_eq_some w.sqlOpen with h1 | ⟨e, h1⟩
    · rcases Option.eq_none_or_eq_some w.linkpearlNew with h2 | ⟨e, h2⟩
      · rcases Option.eq_none_or_eq_some w.botNew with h3 | ⟨e, h3⟩
        · rw [main_started w h0 h1 h2 h3]
          rcases w.smtpStart with (_ | e) | v | _ <;> simp
        · rw [main_bot_fails w e h0 h1 h2 h3]; simp
      · rw [main_linkpearl_fails w e h0 h1 h2]; simp
    · rw [main_sql_fails w e h0 h1]; simp
  · rw [main_sentry_fails w e h0]; simp

end cmd

/-! ## The scheduler produces interleavings of the programs -/

namespace cmd

namespace Proc

variable {T : Goroutine → List Ev}

theorem doneOf_append (a b : List (Goroutine × Ev)) (g : Goroutine) :
    doneOf (a ++ b) g = doneOf a g ++ doneOf b g := by
  simp [doneOf]

theorem doneOf_single_self (g : Goroutine) (e : Ev) : doneOf [(g, e)] g = [e] := by
  simp [doneOf]

theorem doneOf_single_ne (g g' : Goroutine) (e : Ev) (h : g ≠ g') :
    doneOf [(g, e)] g' = [] := by
  simp [doneOf, h]

theorem doneOf_sublist (tr : List (Goroutine × Ev)) (g : Goroutine) :
    (doneOf tr g).Sublist (tr.map Prod.snd) := by
  unfold doneOf
  exact List.Sublist.map _ (List.filter_sublist tr)

theorem Interleaving.nil : Interleaving T [] := by
  intro pre g e post h
  simp at h

theorem Interleaving.snoc {tr : List (Goroutine × Ev)} {g : Goroutine} {e : Ev}
    (h : Interleaving T tr) (h1 : ∀ x ∈ tr, x.2.exitStatus? = none)
    (h2 : g = .main ∨ ∃ x ∈ tr, x.2 = .go g) (h3 : ∃ rest, doneOf tr g ++ e :: rest = T g) :
    Interleaving T (tr ++ [(g, e)]) := by
  intro pre g' e' post heq
  rcases List.eq_nil_or_concat post with hp | ⟨post', y, hp⟩
  · subst hp
    have := List.append_inj' heq rfl
    obtain ⟨ht, hx⟩ := this
    simp only [List.cons.injEq, Prod.mk.injEq, and_true] at hx
    obtain ⟨hg, he⟩ := hx
    subst ht hg he
    exact ⟨h1, h2, h3⟩
  · subst hp
    have heq2 : tr ++ [(g, e)] = (pre ++ (g', e') :: post') ++ [y] := by
      rw [heq]; simp
    have := List.append_inj' heq2 rfl
    exact h pre g' e' post' this.1

theorem Interleaving.initial {a b : List (Goroutine × Ev)} (h : Interleaving T (a ++ b)) :
    Interleaving T a := by
  intro pre g e post heq
  exact h pre g e (post ++ b) (by rw [heq]; simp)

theorem Sound.init (T : Goroutine → List Ev) : Sound T ⟨T, []⟩ :=
  ⟨Interleaving.nil, fun g => by simp [doneOf]⟩

theorem Sound.step {p : Proc} (h : Sound T p) (g : Goroutine) : Sound T (p.step g) := by
  unfold Proc.step
  split
  · exact h
  · rename_i hterm
    split
    · rename_i hl
      split
      · exact h
      · rename_i e rest htodo
        have hsp := h.split g
        rw [htodo] at hsp
        refine ⟨?_, ?_⟩
        · refine Interleaving.snoc h.inter ?_ ?_ ⟨rest, hsp⟩
          · intro x hx
            simp only [terminated, events, Bool.not_eq_true, List.any_eq_false] at hterm
            have := hterm x.2 (List.mem_map_of_mem _ hx)
            cases hs : x.2.exitStatus? with
            | none => rfl
            | some c => simp [hs] at this
          · simp only [launched, events, Bool.or_eq_true, decide_eq_true_eq,
              List.any_eq_true] at hl
            rcases hl with hl | ⟨x, hx, hxl⟩
            · exact Or.inl hl
            · obtain ⟨y, hy, hyx⟩ := List.mem_map.1 hx
              refine Or.inr ⟨y, hy, ?_⟩
              rw [hyx]
              cases x <;> simp [Ev.launches?] at hxl
              rw [hxl]
        · intro g'
          by_cases hg : g' = g
          · subst hg
            simp only [Function.update_same]
            rw [doneOf_append, doneOf_single_self, List.append_assoc]
            exact hsp
          · simp only [Function.update_noteq hg]
            rw [doneOf_append, doneOf_single_ne _ _ _ (Ne.symm hg), List.append_nil]
            exact h.split g'
    · exact h

theorem Sound.run {p : Proc} (h : Sound T p) (sched : List Goroutine) :
    Sound T (p.run sched) := by
  unfold Proc.run
  induction sched generalizing p with
  | nil => exact h
  | cons g gs ih => exact ih (h.step g)

end Proc

theorem run_sound (w : World) (sched : List Goroutine) :
    Proc.Sound (program w) (run w sched) :=
  (Proc.Sound.init (program w)).run sched

/-! ## The programs of the three goroutines -/

/-- The shapes of the run of `main`: an initialisation failure after `n` of the first
four calls, a Mail Service that keeps serving or returns `nil`, or one that fails or
panics and sends `main` through `recovery` into `shutdown`. -/
theorem main_events_cases (w : World) :
    (∃ n f a, (n = 1 ∨ n = 2 ∨ n = 3 ∨ n = 4)
        ∧ (main w).events
          = banner ++ (startup w.cfg).take n ++ [.logFatal f a, .crash (.fatal f a)])
    ∨ (main w).events = banner ++ startup w.cfg ++ [.smtpStart]
    ∨ (∃ e, (main w).events
        = banner ++ startup w.cfg ++ [.smtpStart, .logFatal "SMTP server crashed: %v" [e]]
          ++ shutdown.trace)
    ∨ (main w).events = banner ++ startup w.cfg ++ [.smtpStart] ++ shutdown.trace := by
  cases h0 : w.sentryInit with
  | some e =>
    refine Or.inl ⟨1, "cannot initialize sentry: %v", [e], Or.inl rfl, ?_⟩
    rw [main_sentry_fails w e h0]
    rfl
  | none =>
    cases h1 : w.sqlOpen with
    | some e =>
      refine Or.inl ⟨2, "cannot initialize SQL database: %v", [e], Or.inr (Or.inl rfl), ?_⟩
      rw [main_sql_fails w e h0 h1]
      rfl
    | none =>
      cases h2 : w.linkpearlNew with
      | some e =>
        refine Or.inl
          ⟨3, "cannot initialize matrix bot: %v", [e], Or.inr (Or.inr (Or.inl rfl)), ?_⟩
        rw [main_linkpearl_fails w e h0 h1 h2]
        rfl
      | none =>
        cases h3 : w.botNew with
        | some e =>
          refine Or.inl
            ⟨4, "cannot start matrix bot: %v", [e], Or.inr (Or.inr (Or.inr rfl)), ?_⟩
          rw [main_bot_fails w e h0 h1 h2 h3]
          rfl
        | none =>
          have hm := main_started w h0 h1 h2 h3
          cases hs : w.smtpStart with
          | returns err =>
            cases err with
            | none =>
              rw [hs] at hm
              exact Or.inr (Or.inl (by rw [hm]; rfl))
            | some e =>
              rw [hs] at hm
              exact Or.inr (Or.inr (Or.inl ⟨e, by rw [hm]; rfl⟩))
          | panics v =>
            rw [hs] at hm
            exact Or.inr (Or.inr (Or.inr (by rw [hm]; rfl)))
          | blocks =>
            rw [hs] at hm
            exact Or.inr (Or.inl (by rw [hm]; rfl))

/-- The shapes of the goroutine of `startBot`. -/
theorem startBot_events_cases (w : World) (statusMsg : String) :
    ∃ l, (startBot w statusMsg).events
        = .logDebug "starting matrix bot: %s..." [statusMsg] :: .botStart statusMsg :: l
      ∧ (l = [] ∨ ∃ v, l = [.crash v]
          ∨ ∃ f a, l = [.logFatal f a, .crash v]) := by
  cases hb : w.botStart with
  | returns err =>
    cases err with
    | none => exact ⟨[], by simp [startBot, hb]; rfl, Or.inl rfl⟩
    | some e =>
      refine ⟨[.logFatal "cannot start the bot: %v" [e],
        .crash (.fatal "cannot start the bot: %v" [e])], ?_, Or.inr ⟨_, Or.inr ⟨_, _, rfl⟩⟩⟩
      simp [startBot, hb]
      rfl
  | panics v =>
    refine ⟨[.crash (.value v)], ?_, Or.inr ⟨_, Or.inl rfl⟩⟩
    simp [startBot, hb]
    rfl
  | blocks => exact ⟨[], by simp [startBot, hb]; rfl, Or.inl rfl⟩

/-- The shapes of the listener goroutine. -/
theorem listener_cases (w : World) :
    program w .listener = []
    ∨ ∃ s, w.signal = some s ∧ s ∈ notifySignals
        ∧ program w .listener = .recvSignal s :: shutdown.trace := by
  cases hs : w.signal with
  | none => exact Or.inl (by simp [program, hs])
  | some s =>
    by_cases hm : s ∈ notifySignals
    · exact Or.inr ⟨s, rfl, hm, by simp [program, hs, hm]; rfl⟩
    · exact Or.inl (by simp [program, hs, hm])

/-! ## What follows for every run -/

theorem prefix_of_first {α : Type} (q : α → Bool) (l0 l1 a r : List α) (x : α)
    (h0 : ∀ z ∈ l0, q z = false) (hx : q x = true) (h : l0 ++ l1 = a ++ x :: r) :
    l0 <+: a := by
  induction l0 generalizing a with
  | nil => exact List.nil_prefix
  | cons z l0 ih =>
    cases a with
    | nil =>
      simp only [List.cons_append, List.nil_append, List.cons.injEq] at h
      have := h0 z (List.mem_cons_self _ _)
      rw [h.1, hx] at this
      exact absurd this (by simp)
    | cons z' a' =>
      simp only [List.cons_append, List.cons.injEq] at h
      rw [h.1]
      rw [List.prefix_cons_inj]
      exact ih a' (fun y hy => h0 y (List.mem_cons_of_mem _ hy)) h.2

theorem countP_le_one_of_last {α : Type} (q : α → Bool) (l : List α)
    (h : ∀ pre x post, l = pre ++ x :: post → q x = true → post = []) :
    l.countP q ≤ 1 := by
  induction l with
  | nil => simp
  | cons a l ih =>
    by_cases ha : q a = true
    · have := h [] a l rfl ha
      subst this
      simp [List.countP_cons, ha]
    · have hl : l.countP q ≤ 1 := by
        apply ih
        intro pre x post heq hx
        exact h (a :: pre) x post (by rw [heq]; rfl) hx
      simp only [Bool.not_eq_true] at ha
      simpa [List.countP_cons, ha] using hl

namespace Proc

variable {T : Goroutine → List Ev}

theorem doneOf_cons (g g' : Goroutine) (e : Ev) (tr : List (Goroutine × Ev)) :
    doneOf ((g, e) :: tr) g' = if g = g' then e :: doneOf tr g' else doneOf tr g' := by
  by_cases h : g = g' <;> simp [doneOf, List.filter_cons, h]

theorem events_countP (tr : List (Goroutine × Ev)) (q : Ev → Bool) :
    (tr.map Prod.snd).countP q
      = (doneOf tr .main).countP q + (doneOf tr .listener).countP q
        + (doneOf tr .startBot).countP q := by
  induction tr with
  | nil => simp [doneOf]
  | cons x tr ih =>
    obtain ⟨g, e⟩ := x
    simp only [List.map_cons, doneOf_cons]
    rw [List.countP_cons, ih]
    cases g <;> simp [List.countP_cons] <;> omega

theorem Sound.done_initial {p : Proc} (h : Sound T p) (g : Goroutine) : p.done g <+: T g :=
  ⟨p.todo g, h.split g⟩

theorem Sound.countP_le {p : Proc} (h : Sound T p) (q : Ev → Bool) :
    p.events.countP q
      ≤ (T .main).countP q + (T .listener).countP q + (T .startBot).countP q := by
  unfold events
  rw [events_countP]
  have h1 := (h.done_initial .main).countP_le q
  have h2 := (h.done_initial .listener).countP_le q
  have h3 := (h.done_initial .startBot).countP_le q
  unfold done at h1 h2 h3
  omega

theorem Sound.mem {p : Proc} (h : Sound T p) {g : Goroutine} {e : Ev}
    (hx : (g, e) ∈ p.trace) : e ∈ T g := by
  apply (h.done_initial g).mem
  simp only [done, doneOf, List.mem_map, List.mem_filter, decide_eq_true_eq]
  exact ⟨(g, e), ⟨hx, rfl⟩, rfl⟩

theorem Sound.launched {p : Proc} (h : Sound T p) {g : Goroutine} {e : Ev}
    (hx : (g, e) ∈ p.trace) : g = .main ∨ ∃ g', Ev.go g ∈ T g' := by
  obtain ⟨pre, post, heq⟩ := List.append_of_mem hx
  obtain ⟨-, hl, -⟩ := h.inter pre g e post heq
  rcases hl with hl | ⟨x, hxm, hxe⟩
  · exact Or.inl hl
  · refine Or.inr ⟨x.1, ?_⟩
    rw [← hxe]
    apply h.mem
    rw [heq]
    exact List.mem_append_left _ hxm

theorem Sound.exit_last {p : Proc} (h : Sound T p) (pre post : List Ev) (e : Ev)
    (heq : p.events = pre ++ e :: post) (he : e.exitStatus? ≠ none) : post = [] := by
  cases post with
  | nil => rfl
  | cons y post' =>
    exfalso
    unfold events at heq
    have heq2 : p.trace.map Prod.snd = (pre ++ [e]) ++ y :: post' := by
      rw [heq]; simp
    obtain ⟨l1, l2, hl, hm1, hm2⟩ := List.map_eq_append_iff.1 heq2
    obtain ⟨x, l2', hl2, hx, -⟩ := List.map_eq_cons_iff.1 hm2
    subst hl2
    obtain ⟨hdead, -, -⟩ := h.inter l1 x.1 x.2 l2' (by rw [hl])
    have hmem : e ∈ l1.map Prod.snd := by rw [hm1]; simp
    obtain ⟨z, hz, hze⟩ := List.mem_map.1 hmem
    have := hdead z hz
    rw [hze] at this
    exact he this

/-- An event of the trace was performed by some goroutine, after the events before it. -/
theorem Sound.split_events {p : Proc} (h : Sound T p) (pre post : List Ev) (e : Ev)
    (heq : p.events = pre ++ e :: post) :
    ∃ tpre g, tpre.map Prod.snd = pre
      ∧ (g = .main ∨ ∃ x ∈ tpre, x.2 = .go g)
      ∧ (∃ rest, doneOf tpre g ++ e :: rest = T g)
      ∧ Interleaving T tpre := by
  unfold events at heq
  obtain ⟨l1, l2, hl, hm1, hm2⟩ := List.map_eq_append_iff.1 heq
  obtain ⟨x, l2', hl2, hx, -⟩ := List.map_eq_cons_iff.1 hm2
  subst hl2
  obtain ⟨-, hla, hnext⟩ := h.inter l1 x.1 x.2 l2' (by rw [hl])
  rw [hx] at hnext
  refine ⟨l1, x.1, hm1, hla, hnext, ?_⟩
  have := h.inter
  rw [hl] at this
  exact this.initial

end Proc

/-! ## The stop sequence in the programs -/

/-- A program either has no step of the stop sequence, or ends with `shutdown` and has
none before. -/
theorem program_shutdown_cases (w : World) (g : Goroutine) :
    (program w g).all (fun e => !e.isShutdownStep) = true
    ∨ ∃ l0, program w g = l0 ++ shutdown.trace
        ∧ l0.all (fun e => !e.isShutdownStep) = true := by
  cases g with
  | main =>
    simp only [program]
    rcases main_events_cases w with ⟨n, f, a, hn, h⟩ | h | ⟨e, h⟩ | h
    · left
      rw [h]
      rcases hn with rfl | rfl | rfl | rfl <;> rfl
    · left
      rw [h]
      rfl
    · right
      exact ⟨_, h, rfl⟩
    · right
      exact ⟨_, h, rfl⟩
  | listener =>
    rcases listener_cases w with h | ⟨s, -, -, h⟩
    · left
      rw [h]
      rfl
    · right
      exact ⟨[.recvSignal s], by rw [h]; rfl, rfl⟩
  | startBot =>
    left
    simp only [program]
    obtain ⟨l, h, hl⟩ := startBot_events_cases w w.cfg.StatusMsg
    rw [h]
    rcases hl with rfl | ⟨v, rfl | ⟨f, a, rfl⟩⟩ <;> rfl

theorem countP_eq_zero_of_all {q r : Ev → Bool} (hqr : ∀ e, q e = true → r e = true)
    (l : List Ev) (h : l.all (fun e => !r e) = true) : l.countP q = 0 := by
  rw [List.countP_eq_zero]
  intro e he
  rw [List.all_eq_true] at h
  have := h e he
  intro hq
  rw [hqr e hq] at this
  simp at this

/-- A step of the stop sequence occurs in a program at most once, and only in the
program of a trigger that fires. -/
theorem program_countP_le (w : World) (g : Goroutine) (q : Ev → Bool)
    (hqr : ∀ e, q e = true → e.isShutdownStep = true)
    (hq : shutdown.trace.countP q ≤ 1) :
    (program w g).countP q ≤ if fires w g = true then 1 else 0 := by
  rcases program_shutdown_cases w g with h | ⟨l0, h, h0⟩
  · rw [countP_eq_zero_of_all hqr _ h]
    exact Nat.zero_le _
  · have hf : fires w g = true := by
      unfold fires
      rw [h, List.any_append]
      have : shutdown.trace.any Ev.isOsExit = true := rfl
      rw [this, Bool.or_true]
    rw [hf, h, List.countP_append, countP_eq_zero_of_all hqr _ h0]
    simpa using hq

/-- Where a program calls `os.Exit`, it has stopped both services and flushed sentry
before, in that order, the status is 0 and nothing follows. -/
theorem program_exit (w : World) (g : Goroutine) (a r : List Ev) (c : Int)
    (h : program w g = a ++ .osExit c :: r) :
    [Ev.smtpStop, Ev.botStop, Ev.sentryFlush (5 * time.Second)].Sublist a
      ∧ c = 0 ∧ r = [] := by
  rcases program_shutdown_cases w g with hall | ⟨l0, hl, h0⟩
  · exfalso
    rw [List.all_eq_true] at hall
    have := hall (.osExit c) (by rw [h]; simp)
    simp [Ev.isShutdownStep] at this
  · have hs : shutdown.trace = shutdown.trace.take 5 ++ [.osExit 0] := rfl
    have hl2 : (l0 ++ shutdown.trace.take 5) ++ [.osExit 0] = a ++ .osExit c :: r := by
      rw [← h, hl, List.append_assoc, ← hs]
    have hno : ∀ z ∈ l0 ++ shutdown.trace.take 5, Ev.isOsExit z = false := by
      intro z hz
      rcases List.mem_append.1 hz with hz | hz
      · rw [List.all_eq_true] at h0
        have := h0 z hz
        cases z <;> simp [Ev.isShutdownStep] at this <;> rfl
      · have hall : (shutdown.trace.take 5).all (fun e => !e.isOsExit) = true := rfl
        rw [List.all_eq_true] at hall
        simpa using hall z hz
    obtain ⟨k, hk⟩ := prefix_of_first Ev.isOsExit _ _ a r (.osExit c) hno rfl hl2
    refine ⟨?_, ?_⟩
    · rw [← hk]
      have h1 : [Ev.smtpStop, Ev.botStop, Ev.sentryFlush (5 * time.Second)].Sublist
          (shutdown.trace.take 5) := by
        rw [shutdown_trace]
        decide
      exact (h1.trans (List.sublist_append_right _ _)).trans (List.sublist_append_left _ _)
    · rw [← hk, List.append_assoc (l0 ++ List.take 5 shutdown.trace) k] at hl2
      have := List.append_cancel_left hl2
      cases k with
      | nil =>
        simp only [List.nil_append, List.cons.injEq, Ev.osExit.injEq] at this
        exact ⟨this.1.symm, this.2.symm⟩
      | cons y k =>
        exfalso
        simp only [List.cons_append, List.cons.injEq] at this
        have h2 := this.2
        have : (k ++ Ev.osExit c :: r).length = 0 := by rw [← h2]; rfl
        simp at this

/-- In every run, a call of `os.Exit` comes after both stops and the flush, in that
order, its status is 0, and nothing happens after it. -/
theorem run_exit (w : World) (sched : List Goroutine) (pre post : List Ev) (c : Int)
    (h : (run w sched).events = pre ++ .osExit c :: post) :
    [Ev.smtpStop, Ev.botStop, Ev.sentryFlush (5 * time.Second)].Sublist pre
      ∧ c = 0 ∧ post = [] := by
  have hs := run_sound w sched
  obtain ⟨tpre, g, hm, -, ⟨rest, hnext⟩, -⟩ := hs.split_events pre post _ h
  obtain ⟨h1, h2, -⟩ := program_exit w g _ _ c hnext.symm
  refine ⟨?_, h2, hs.exit_last pre post _ h (by simp [Ev.exitStatus?])⟩
  rw [← hm]
  exact h1.trans (Proc.doneOf_sublist tpre g)

/-- What a goroutine has done of the stop sequence is a beginning of it. -/
theorem run_done_shutdown (w : World) (sched : List Goroutine) (g : Goroutine) :
    ((run w sched).done g).filter Ev.isShutdownStep
      <+: [.smtpStop, .botStop, .sentryFlush (5 * time.Second), .osExit 0] := by
  have hp := ((run_sound w sched).done_initial g).filter Ev.isShutdownStep
  refine hp.trans ?_
  rcases program_shutdown_cases w g with hall | ⟨l0, hl, h0⟩
  · have : (program w g).filter Ev.isShutdownStep = [] := by
      rw [List.filter_eq_nil_iff]
      intro e he
      rw [List.all_eq_true] at hall
      simpa using hall e he
    rw [this]
    exact List.nil_prefix
  · have : l0.filter Ev.isShutdownStep = [] := by
      rw [List.filter_eq_nil_iff]
      intro e he
      rw [List.all_eq_true] at h0
      simpa using h0 e he
    rw [hl, List.filter_append, this]
    exact List.prefix_rfl

/-! ## The stop sequence: order and repetition -/

/-- C4: the stop sequence is the same ordered trace for every trigger. `shutdown` stops
the Mail Service, then the Chat Client, then flushes sentry with a deadline of
5 seconds, then exits; the signal listener and `recovery` both run exactly that. In
every run each goroutine performs these steps in that order, and whenever `os.Exit` is
called the two stops and the flush have come before it, in order. -/
theorem shutdown_sequence_ordered :
    shutdown.trace.filter Ev.isShutdownStep
        = [.smtpStop, .botStop, .sentryFlush (5 * time.Second), .osExit 0]
    ∧ time.Second = 1000000000
    ∧ shutdown.res = .exited 0
    ∧ (∀ s, initShutdown.func1 s = ⟨.recvSignal s :: shutdown.trace, .exited 0⟩)
    ∧ (∀ r, (recovery r).trace.filter Ev.isShutdownStep
          = [.smtpStop, .botStop, .sentryFlush (5 * time.Second), .osExit 0]
        ∧ (recovery r).res = .exited 0)
    ∧ (∀ w sched g, ((run w sched).done g).filter Ev.isShutdownStep
        <+: [.smtpStop, .botStop, .sentryFlush (5 * time.Second), .osExit 0])
    ∧ (∀ w sched pre c post, (run w sched).events = pre ++ .osExit c :: post →
        [Ev.smtpStop, Ev.botStop, Ev.sentryFlush (5 * time.Second)].Sublist pre
          ∧ c = 0 ∧ post = []) := by
  refine ⟨rfl, rfl, rfl, fun s => rfl, ?_, run_done_shutdown,
    fun w sched pre c post h => run_exit w sched pre post c h⟩
  intro r
  cases r with
  | none => exact ⟨rfl, rfl⟩
  | some v =>
    rw [recovery_some]
    exact ⟨rfl, rfl⟩

theorem triggers_eq (w : World) :
    triggers w = (if fires w .main = true then 1 else 0)
      + (if fires w .listener = true then 1 else 0)
      + (if fires w .startBot = true then 1 else 0) := by
  unfold triggers
  simp only [List.countP_cons, List.countP_nil]
  omega

theorem fires_startBot (w : World) : fires w .startBot = false := by
  unfold fires
  simp only [program]
  obtain ⟨l, h, hl⟩ := startBot_events_cases w w.cfg.StatusMsg
  rw [h]
  rcases hl with rfl | ⟨v, rfl | ⟨f, a, rfl⟩⟩ <;> rfl

theorem run_countP_le (w : World) (sched : List Goroutine) (q : Ev → Bool)
    (hqr : ∀ e, q e = true → e.isShutdownStep = true)
    (hq : shutdown.trace.countP q ≤ 1) :
    (run w sched).events.countP q ≤ triggers w := by
  have h := (run_sound w sched).countP_le q
  have h1 := program_countP_le w .main q hqr hq
  have h2 := program_countP_le w .listener q hqr hq
  have h3 := program_countP_le w .startBot q hqr hq
  rw [triggers_eq]
  omega

/-- C5, as the code has it: there is no once-only gate, each trigger that fires runs
`shutdown` itself until the first `os.Exit` ends the process. At most two triggers fire
(the signal listener and the deferred `recovery`). In every run each step of the stop
sequence is executed at most once per trigger that fires, the process exits at most
once, and when it exits each step has been executed at least once. -/
theorem stop_steps_per_trigger (w : World) (sched : List Goroutine) :
    triggers w ≤ 2
    ∧ (run w sched).events.countP Ev.isSmtpStop ≤ triggers w
    ∧ (run w sched).events.countP Ev.isBotStop ≤ triggers w
    ∧ (run w sched).events.countP Ev.isSentryFlush ≤ triggers w
    ∧ (run w sched).events.countP Ev.isOsExit ≤ 1
    ∧ (1 ≤ (run w sched).events.countP Ev.isOsExit →
        1 ≤ (run w sched).events.countP Ev.isSmtpStop
        ∧ 1 ≤ (run w sched).events.countP Ev.isBotStop
        ∧ 1 ≤ (run w sched).events.countP Ev.isSentryFlush) := by
  refine ⟨?_, ?_, ?_, ?_, ?_, ?_⟩
  · rw [triggers_eq, fires_startBot]
    split <;> split <;> simp
  · exact run_countP_le w sched _ (fun e he => by cases e <;> simp_all [Ev.isSmtpStop, Ev.isShutdownStep]) (by decide)
  · exact run_countP_le w sched _ (fun e he => by cases e <;> simp_all [Ev.isBotStop, Ev.isShutdownStep]) (by decide)
  · exact run_countP_le w sched _ (fun e he => by cases e <;> simp_all [Ev.isSentryFlush, Ev.isShutdownStep]) (by decide)
  · apply countP_le_one_of_last
    intro pre x post heq hx
    apply (run_sound w sched).exit_last pre post x heq
    cases x <;> simp_all [Ev.isOsExit, Ev.exitStatus?]
  · intro hpos
    have hpos' : 0 < (run w sched).events.countP Ev.isOsExit := hpos
    rw [List.countP_pos_iff] at hpos'
    obtain ⟨x, hx, hxe⟩ := hpos'
    obtain ⟨pre, post, heq⟩ := List.append_of_mem hx
    cases x <;> simp [Ev.isOsExit] at hxe
    rename_i c
    obtain ⟨hsub, -, -⟩ := run_exit w sched pre post c heq
    have hmem : ∀ e ∈ [Ev.smtpStop, Ev.botStop, Ev.sentryFlush (5 * time.Second)],
        e ∈ (run w sched).events := by
      intro e he
      rw [heq]
      exact List.mem_append_left _ (hsub.subset he)
    refine ⟨?_, ?_, ?_⟩
    · exact List.countP_pos_iff.2 ⟨_, hmem Ev.smtpStop (by simp), rfl⟩
    · exact List.countP_pos_iff.2 ⟨_, hmem Ev.botStop (by simp), rfl⟩
    · exact List.countP_pos_iff.2 ⟨_, hmem (Ev.sentryFlush (5 * time.Second)) (by simp), rfl⟩

/-- C5 fails as stated: `smtpserv.Start()` returns an error and `recovery` runs
`shutdown` on `main`; a signal arrives before `main` has exited, and the listener runs
`shutdown` as well. Two triggers fire, and both services are stopped twice and sentry is
flushed twice before the process exits. -/
theorem shutdown_runs_twice :
    triggers signalledWorld = 2
    ∧ (run signalledWorld signalledSchedule).events.countP Ev.isSmtpStop = 2
    ∧ (run signalledWorld signalledSchedule).events.countP Ev.isBotStop = 2
    ∧ (run signalledWorld signalledSchedule).events.countP Ev.isSentryFlush = 2
    ∧ (run signalledWorld signalledSchedule).events.countP Ev.isOsExit = 1 := by
  decide

/-! ## Panics, fatal errors and signals -/

theorem program_no_sentryRecover (w : World) (g : Goroutine) :
    (program w g).countP Ev.isSentryRecover = 0 := by
  cases g with
  | main =>
    simp only [program]
    rcases main_events_cases w with ⟨n, f, a, hn, h⟩ | h | ⟨e, h⟩ | h
    · rw [h]
      rcases hn with rfl | rfl | rfl | rfl <;> rfl
    · rw [h]; rfl
    · rw [h]; rfl
    · rw [h]; rfl
  | listener =>
    rcases listener_cases w with h | ⟨s, -, -, h⟩
    · rw [h]; rfl
    · rw [h]; rfl
  | startBot =>
    simp only [program]
    obtain ⟨l, h, hl⟩ := startBot_events_cases w w.cfg.StatusMsg
    rw [h]
    rcases hl with rfl | ⟨v, rfl | ⟨f, a, rfl⟩⟩ <;> rfl

/-- C6, on the code: `recovery` hands the panic to sentry only when `recover()` returned
`nil`. For every panic value it runs `shutdown` and nothing else, so sentry receives no
captured error; the panic stops there and the process exits with status 0. In no run
at all is a captured error handed to sentry. -/
theorem recovery_reports_no_panic :
    (∀ v, recovery (some v) = ⟨shutdown.trace, .exited 0⟩)
    ∧ (∀ v, (recovery (some v)).trace.countP Ev.isSentryRecover = 0)
    ∧ (main panicWorld).trace.countP Ev.isSentryRecover = 0
    ∧ (main panicWorld).trace.filter Ev.isShutdownStep
        = [.smtpStop, .botStop, .sentryFlush (5 * time.Second), .osExit 0]
    ∧ (main panicWorld).res = .exited 0
    ∧ (∀ w sched, (run w sched).events.countP Ev.isSentryRecover = 0) := by
  refine ⟨recovery_some, ?_, by decide, by decide, by decide, ?_⟩
  · intro v
    rw [recovery_some]
    rfl
  · intro w sched
    have h := (run_sound w sched).countP_le Ev.isSentryRecover
    rw [program_no_sentryRecover, program_no_sentryRecover, program_no_sentryRecover] at h
    omega

/-- C7 fails as stated: when `smtpserv.Start()` returns an error, the process exits with
status 0. -/
theorem smtp_failure_exits_zero :
    Ev.smtpStart ∈ (main smtpFailsWorld).trace
    ∧ smtpFailsWorld.smtpStart = .returns (some "listen tcp :25: bind: address already in use")
    ∧ (main smtpFailsWorld).res = .exited 0
    ∧ (main smtpFailsWorld).events.filterMap Ev.exitStatus? = [0] := by
  decide

theorem main_smtpStart_mem (w : World) (h : Ev.smtpStart ∈ (main w).trace) :
    w.sentryInit = none ∧ w.sqlOpen = none ∧ w.linkpearlNew = none ∧ w.botNew = none := by
  cases h0 : w.sentryInit with
  | some e =>
    rw [main_sentry_fails w e h0] at h
    simp [banner] at h
  | none =>
    cases h1 : w.sqlOpen with
    | some e =>
      rw [main_sql_fails w e h0 h1] at h
      simp [banner, startup] at h
    | none =>
      cases h2 : w.linkpearlNew with
      | some e =>
        rw [main_linkpearl_fails w e h0 h1 h2] at h
        simp [banner, startup] at h
      | none =>
        cases h3 : w.botNew with
        | some e =>
          rw [main_bot_fails w e h0 h1 h2 h3] at h
          simp [banner, startup] at h
        | none => exact ⟨rfl, rfl, rfl, rfl⟩

/-- C7, as the code has it: when `main` calls `smtpserv.Start()` and it returns an
error, `main` logs it with `log.Fatal`, whose panic the deferred `recovery` catches;
the stop sequence is executed on `main` and ends in `os.Exit(0)`, so that the exit
status is 0. -/
theorem smtp_failure_shutdown (w : World) (e : Error)
    (hcall : Ev.smtpStart ∈ (main w).trace) (hs : w.smtpStart = .returns (some e)) :
    (main w).trace
        = banner ++ startup w.cfg ++ [.smtpStart, .logFatal "SMTP server crashed: %v" [e]]
          ++ shutdown.trace
    ∧ (main w).trace.filter Ev.isShutdownStep
        = [.smtpStop, .botStop, .sentryFlush (5 * time.Second), .osExit 0]
    ∧ (main w).res = .exited 0
    ∧ (main w).events.filterMap Ev.exitStatus? = [0] := by
  obtain ⟨h0, h1, h2, h3⟩ := main_smtpStart_mem w hcall
  have hm := main_started w h0 h1 h2 h3
  rw [hs] at hm
  simp only at hm
  rw [hm]
  exact ⟨rfl, rfl, rfl, rfl⟩

/-- A port that is already bound: `main` shuts down and exits with status 0. -/
theorem smtp_failure_shutdown_witness :
    (main smtpFailsWorld).res = .exited 0 :=
  (smtp_failure_shutdown smtpFailsWorld "listen tcp :25: bind: address already in use"
    (by decide) rfl).2.2.1

theorem mem_notifySignals (s : syscall.Signal) :
    s ∈ notifySignals
      ↔ s = .SIGINT ∨ s = .SIGABRT ∨ s = .SIGHUP ∨ s = .SIGQUIT ∨ s = .SIGTERM := by
  cases s <;> simp [notifySignals, os.Interrupt]

/-- C8: `initShutdown` registers the listener for `os.Interrupt`, `SIGABRT`, `SIGHUP`,
`SIGINT`, `SIGQUIT` and `SIGTERM`, that is for exactly interrupt, abort, hangup, quit
and terminate. The listener goroutine, on receiving a signal, runs `shutdown`, which
ends in `os.Exit(0)`. In every run the listener receives only a signal of that set, and
for each signal of the set, sent once everything is built, the run in which the
listener then proceeds goes through the stop sequence to exit status 0. -/
theorem signal_listener_shutdown :
    (∀ s, s ∈ notifySignals
        ↔ s = .SIGINT ∨ s = .SIGABRT ∨ s = .SIGHUP ∨ s = .SIGQUIT ∨ s = .SIGTERM)
    ∧ initShutdown = ⟨[.signalNotify notifySignals, .go .listener], .ok ()⟩
    ∧ (∀ s, initShutdown.func1 s = ⟨.recvSignal s :: shutdown.trace, .exited 0⟩)
    ∧ (∀ s, (initShutdown.func1 s).trace.filter Ev.isShutdownStep
        = [.smtpStop, .botStop, .sentryFlush (5 * time.Second), .osExit 0])
    ∧ (∀ w sched s, Ev.recvSignal s ∈ (run w sched).events →
        s ∈ notifySignals ∧ w.signal = some s)
    ∧ (∀ s, s ∈ notifySignals →
        (run { sampleWorld with signal := some s } signalSchedule).events
            = banner ++ startup sampleConfig ++ .recvSignal s :: shutdown.trace
          ∧ (run { sampleWorld with signal := some s } signalSchedule).events.filterMap
              Ev.exitStatus? = [0]) := by
  refine ⟨mem_notifySignals, rfl, fun s => rfl, fun s => rfl, ?_, ?_⟩
  · intro w sched s hmem
    have hs := run_sound w sched
    obtain ⟨x, hx, hxe⟩ := List.mem_map.1 hmem
    have hprog : Ev.recvSignal s ∈ program w x.1 := by
      rw [← hxe]
      exact hs.mem hx
    generalize x.1 = g at hprog
    cases g with
    | main =>
      simp only [program] at hprog
      rcases main_events_cases w with ⟨n, f, a, hn, h⟩ | h | ⟨e, h⟩ | h
      · rw [h] at hprog
        rcases hn with rfl | rfl | rfl | rfl <;> simp [banner, startup] at hprog
      · rw [h] at hprog
        simp [banner, startup] at hprog
      · rw [h, shutdown_trace] at hprog
        simp [banner, startup] at hprog
      · rw [h, shutdown_trace] at hprog
        simp [banner, startup] at hprog
    | listener =>
      rcases listener_cases w with h | ⟨s', h1, h2, h⟩
      · rw [h] at hprog
        simp at hprog
      · rw [h, shutdown_trace] at hprog
        simp at hprog
        subst hprog
        exact ⟨h2, h1⟩
    | startBot =>
      simp only [program] at hprog
      obtain ⟨l, h, hl⟩ := startBot_events_cases w w.cfg.StatusMsg
      rw [h] at hprog
      rcases hl with rfl | ⟨v, rfl | ⟨f, a, rfl⟩⟩ <;> simp at hprog
  · intro s hs
    rw [mem_notifySignals] at hs
    rcases hs with rfl | rfl | rfl | rfl | rfl <;> exact ⟨by decide, by decide⟩

/-! ## Startup order -/

theorem main_program_start_cases (w : World) :
    (program w .main).all (fun e => !e.isStart && e.launches?.isNone) = true
    ∨ ∃ tl, program w .main = banner ++ startup w.cfg ++ .smtpStart :: tl
        ∧ tl.all (fun e => !e.isStart) = true := by
  simp only [program]
  rcases main_events_cases w with ⟨n, f, a, hn, h⟩ | h | ⟨e, h⟩ | h
  · left
    rw [h]
    rcases hn with rfl | rfl | rfl | rfl <;> rfl
  · right
    exact ⟨[], by rw [h], rfl⟩
  · right
    exact ⟨.logFatal "SMTP server crashed: %v" [e] :: shutdown.trace, by rw [h]; rfl, rfl⟩
  · right
    exact ⟨shutdown.trace, by rw [h]; rfl, rfl⟩

theorem listener_program_quiet (w : World) :
    (program w .listener).all (fun e => !e.isStart && e.launches?.isNone) = true := by
  rcases listener_cases w with h | ⟨s, -, -, h⟩
  · rw [h]; rfl
  · rw [h]; rfl

theorem startBot_program_quiet (w : World) :
    (program w .startBot).all
      (fun e => e.launches?.isNone && (!e.isStart || e == .botStart w.cfg.StatusMsg)) = true := by
  simp only [program]
  obtain ⟨l, h, hl⟩ := startBot_events_cases w w.cfg.StatusMsg
  rw [h]
  rcases hl with rfl | ⟨v, rfl | ⟨f, a, rfl⟩⟩ <;> simp [Ev.launches?, Ev.isStart]

/-- In a run, once `go startBot` has been performed, the whole initialisation has been
performed before it, in order. -/
theorem launch_after_init (w : World) (tr p1 p2 : List (Goroutine × Ev)) (g : Goroutine)
    (hint : Proc.Interleaving (program w) tr) (heq : tr = p1 ++ (g, .go .startBot) :: p2) :
    (startup w.cfg).Sublist (tr.map Prod.snd) := by
  obtain ⟨-, -, ⟨rest, hnext⟩⟩ := hint p1 g _ p2 heq
  have hmem : Ev.go .startBot ∈ program w g := by
    rw [← hnext]; simp
  cases g with
  | main =>
    rcases main_program_start_cases w with hall | ⟨tl, hprog, -⟩
    · exfalso
      rw [List.all_eq_true] at hall
      have := hall _ hmem
      simp [Ev.launches?] at this
    · have hst : startup w.cfg = (startup w.cfg).take 8 ++ [.go .startBot] := rfl
      have hno : ∀ z ∈ banner ++ (startup w.cfg).take 8,
          (fun e : Ev => decide (e.launches? = some Goroutine.startBot)) z = false := by
        have hall : (banner ++ (startup w.cfg).take 8).all
            (fun e => !decide (e.launches? = some Goroutine.startBot)) = true := rfl
        rw [List.all_eq_true] at hall
        intro z hz
        simpa using hall z hz
      have hsplit : (banner ++ (startup w.cfg).take 8) ++ (.go .startBot :: .smtpStart :: tl)
          = Proc.doneOf p1 .main ++ .go .startBot :: rest := by
        rw [hnext, hprog]
        rfl
      have hpre := prefix_of_first _ _ _ _ _ _ hno (by rfl) hsplit
      have h1 : ((startup w.cfg).take 8).Sublist (p1.map Prod.snd) :=
        ((List.sublist_append_right _ _).trans hpre.sublist).trans (Proc.doneOf_sublist p1 _)
      rw [hst, heq, List.map_append, List.map_cons]
      exact h1.append ((List.Sublist.refl _).cons₂ _ |>.trans
        (List.Sublist.cons₂ _ (List.nil_sublist _)))
  | listener =>
    exfalso
    have hall := listener_program_quiet w
    rw [List.all_eq_true] at hall
    have := hall _ hmem
    simp [Ev.launches?] at this
  | startBot =>
    exfalso
    have hall := startBot_program_quiet w
    rw [List.all_eq_true] at hall
    have := hall _ hmem
    simp [Ev.launches?] at this

/-- C9, as the code has it: in every run, a `Start` call of either service comes after
the whole initialisation (sentry, the database and the Chat Client, the Mail Service,
the signal listener, in that order) and after `go startBot(statusMsg)`. The call is
`smtpserv.Start()` on `main` or `mxb.Start(statusMsg)` on the goroutine launched for it;
the two are not ordered with respect to each other. -/
theorem start_after_launch (w : World) (sched : List Goroutine) (pre post : List Ev) (e : Ev)
    (h : (run w sched).events = pre ++ e :: post) (he : e.isStart = true) :
    (startup w.cfg).Sublist pre
      ∧ Ev.go .startBot ∈ pre
      ∧ (e = .smtpStart ∨ e = .botStart w.cfg.StatusMsg) := by
  have hs := run_sound w sched
  obtain ⟨tpre, g, hm, hla, ⟨rest, hnext⟩, hint⟩ := hs.split_events pre post e h
  have hmem : e ∈ program w g := by
    rw [← hnext]; simp
  have key : (startup w.cfg).Sublist pre ∧ (e = .smtpStart ∨ e = .botStart w.cfg.StatusMsg) := by
    cases g with
    | main =>
      rcases main_program_start_cases w with hall | ⟨tl, hprog, htl⟩
      · exfalso
        rw [List.all_eq_true] at hall
        have := hall _ hmem
        simp [he] at this
      · have hno : ∀ z ∈ banner ++ startup w.cfg, Ev.isStart z = false := by
          have hall : (banner ++ startup w.cfg).all (fun e => !e.isStart) = true := rfl
          rw [List.all_eq_true] at hall
          intro z hz
          simpa using hall z hz
        have hsplit : (banner ++ startup w.cfg) ++ (.smtpStart :: tl)
            = Proc.doneOf tpre .main ++ e :: rest := by
          rw [hnext, hprog]
        obtain ⟨k, hk⟩ := prefix_of_first _ _ _ _ _ _ hno he hsplit
        refine ⟨?_, ?_⟩
        · rw [← hm]
          have h1 : (startup w.cfg).Sublist (banner ++ startup w.cfg) :=
            List.sublist_append_right banner _
          have h2 : (banner ++ startup w.cfg).Sublist (Proc.doneOf tpre .main) := by
            rw [← hk]
            exact List.sublist_append_left _ _
          exact (h1.trans h2).trans (Proc.doneOf_sublist tpre .main)
        · rw [← hk, List.append_assoc (banner ++ startup w.cfg) k] at hsplit
          have h2 := List.append_cancel_left hsplit
          cases k with
          | nil =>
            simp only [List.nil_append, List.cons.injEq] at h2
            exact Or.inl h2.1.symm
          | cons y k =>
            exfalso
            simp only [List.cons_append, List.cons.injEq] at h2
            rw [List.all_eq_true] at htl
            have := htl e (by rw [h2.2]; simp)
            simp [he] at this
    | listener =>
      exfalso
      have hall := listener_program_quiet w
      rw [List.all_eq_true] at hall
      have := hall _ hmem
      simp [he] at this
    | startBot =>
      have hall := startBot_program_quiet w
      rw [List.all_eq_true] at hall
      have hb := hall _ hmem
      simp only [he, Bool.not_true, Bool.false_or, Bool.and_eq_true, beq_iff_eq] at hb
      refine ⟨?_, Or.inr hb.2⟩
      rcases hla with hla | ⟨x, hx, hxe⟩
      · exact absurd hla (by simp)
      · obtain ⟨p1, p2, hsp⟩ := List.append_of_mem hx
        have hx' : x = (x.1, Ev.go .startBot) := by rw [← hxe]
        rw [hx'] at hsp
        rw [← hm]
        exact launch_after_init w tpre p1 p2 x.1 hint hsp
  refine ⟨key.1, ?_, key.2⟩
  exact key.1.subset (by simp [startup])

/-- In the run where `main` calls `smtpserv.Start()` first, the call comes after the
whole initialisation and the launch of `startBot`. -/
theorem start_after_launch_witness :
    (startup sampleConfig).Sublist (banner ++ startup sampleConfig)
      ∧ Ev.go .startBot ∈ banner ++ startup sampleConfig :=
  have h := start_after_launch sampleWorld mailFirstSchedule (banner ++ startup sampleConfig)
    [.logDebug "starting matrix bot: %s..." ["Delivering emails"],
      .botStart "Delivering emails"] .smtpStart rfl rfl
  ⟨h.1, h.2.1⟩

/-- C9 fails as stated: `main` launches `startBot` with `go`, and in this run it calls
`smtpserv.Start()` before the new goroutine calls `mxb.Start(statusMsg)`. -/
theorem mail_service_started_first :
    (run sampleWorld mailFirstSchedule).events.filter Ev.isStart
      = [.smtpStart, .botStart "Delivering emails"] := by
  decide

/-! ## Initialisation failures -/

/-- After an initialisation failure only `main` has run, and it has stopped at the
failure. -/
theorem failed_init_run (w : World) (n : Nat) (f : String) (a : List String)
    (hn : n = 1 ∨ n = 2 ∨ n = 3 ∨ n = 4)
    (hmain : main w
      = ⟨banner ++ (startup w.cfg).take n ++ [.logFatal f a], .panicking (.fatal f a)⟩)
    (sched : List Goroutine) :
    (run w sched).events
      <+: banner ++ (startup w.cfg).take n ++ [.logFatal f a, .crash (.fatal f a)] := by
  have hprog : program w .main
      = banner ++ (startup w.cfg).take n ++ [.logFatal f a, .crash (.fatal f a)] := by
    simp only [program, Exec.events, hmain]
    simp
  have hquiet : ∀ g g', Ev.go g ∉ program w g' := by
    intro g g' hmem
    cases g' with
    | main =>
      rw [hprog] at hmem
      rcases hn with rfl | rfl | rfl | rfl <;> simp [banner, startup] at hmem
    | listener =>
      have hall := listener_program_quiet w
      rw [List.all_eq_true] at hall
      have := hall _ hmem
      simp [Ev.launches?] at this
    | startBot =>
      have hall := startBot_program_quiet w
      rw [List.all_eq_true] at hall
      have := hall _ hmem
      simp [Ev.launches?] at this
  have hs := run_sound w sched
  have htag : ∀ x ∈ (run w sched).trace, x.1 = Goroutine.main := by
    intro x hx
    rcases hs.launched (g := x.1) (e := x.2) hx with h | ⟨g', h⟩
    · exact h
    · exact absurd h (hquiet _ _)
  have hfil : (run w sched).trace.filter (fun x => x.1 = Goroutine.main)
      = (run w sched).trace := by
    rw [List.filter_eq_self]
    intro x hx
    simp [htag x hx]
  have hpre := hs.done_initial .main
  unfold Proc.done Proc.doneOf at hpre
  rw [hfil, hprog] at hpre
  exact hpre

theorem failed_init_quiet (cfg : config.Config) (n : Nat) (f : String) (a : List String)
    (hn : n = 1 ∨ n = 2 ∨ n = 3 ∨ n = 4) :
    ∀ e ∈ banner ++ (startup cfg).take n ++ [.logFatal f a, .crash (.fatal f a)],
      e.isLaterStep = false := by
  have hall : ∀ m, m = 1 ∨ m = 2 ∨ m = 3 ∨ m = 4 →
      (banner ++ (startup cfg).take m ++ [Ev.logFatal f a, Ev.crash (.fatal f a)]).all
        (fun e => !e.isLaterStep) = true := by
    intro m hm
    rcases hm with rfl | rfl | rfl | rfl <;> rfl
  intro e he
  have := hall n hn
  rw [List.all_eq_true] at this
  simpa using this e he

/-- C10: if `sentry.Init`, `sql.Open`, `linkpearl.New` or `bot.New` returns an error,
`main` stops at the first failing call with the panic of `log.Fatal`, which nothing
recovers: its trace is the banner, the calls up to the failing one and the fatal log
line. No later initialisation step is executed, the signal listener is not registered,
no goroutine is launched, and in no run of the process is either `Start` called. -/
theorem init_failure_is_fatal (w : World)
    (h : w.sentryInit ≠ none ∨ w.sqlOpen ≠ none ∨ w.linkpearlNew ≠ none ∨ w.botNew ≠ none) :
    ∃ n f a,
      n = (if w.sentryInit.isSome then 1 else if w.sqlOpen.isSome then 2
          else if w.linkpearlNew.isSome then 3 else 4)
      ∧ main w
          = ⟨banner ++ (startup w.cfg).take n ++ [.logFatal f a], .panicking (.fatal f a)⟩
      ∧ (∀ e ∈ (main w).trace, e.isLaterStep = false)
      ∧ (∀ sched, (run w sched).events
          <+: banner ++ (startup w.cfg).take n ++ [.logFatal f a, .crash (.fatal f a)])
      ∧ (∀ sched, ∀ e ∈ (run w sched).events, e.isLaterStep = false) := by
  have build : ∀ n f a, (n = 1 ∨ n = 2 ∨ n = 3 ∨ n = 4) →
      n = (if w.sentryInit.isSome then 1 else if w.sqlOpen.isSome then 2
          else if w.linkpearlNew.isSome then 3 else 4) →
      main w = ⟨banner ++ (startup w.cfg).take n ++ [.logFatal f a], .panicking (.fatal f a)⟩ →
      ∃ n f a,
        n = (if w.sentryInit.isSome then 1 else if w.sqlOpen.isSome then 2
            else if w.linkpearlNew.isSome then 3 else 4)
        ∧ main w
            = ⟨banner ++ (startup w.cfg).take n ++ [.logFatal f a], .panicking (.fatal f a)⟩
        ∧ (∀ e ∈ (main w).trace, e.isLaterStep = false)
        ∧ (∀ sched, (run w sched).events
            <+: banner ++ (startup w.cfg).take n ++ [.logFatal f a, .crash (.fatal f a)])
        ∧ (∀ sched, ∀ e ∈ (run w sched).events, e.isLaterStep = false) := by
    intro n f a hn hnw hmain
    refine ⟨n, f, a, hnw, hmain, ?_, failed_init_run w n f a hn hmain, ?_⟩
    · intro e he
      apply failed_init_quiet w.cfg n f a hn
      rw [hmain] at he
      simp only [List.mem_append, List.mem_singleton] at he
      simp only [List.mem_append, List.mem_cons, List.mem_singleton]
      rcases he with (he | he) | he
      · exact Or.inl (Or.inl he)
      · exact Or.inl (Or.inr he)
      · exact Or.inr (Or.inl he)
    · intro sched e he
      exact failed_init_quiet w.cfg n f a hn e
        ((failed_init_run w n f a hn hmain sched).subset he)
  rcases Option.eq_none_or_eq_some w.sentryInit with h0 | ⟨e, h0⟩
  · rcases Option.eq_none_or_eq_some w.sqlOpen with h1 | ⟨e, h1⟩
    · rcases Option.eq_none_or_eq_some w.linkpearlNew with h2 | ⟨e, h2⟩
      · rcases Option.eq_none_or_eq_some w.botNew with h3 | ⟨e, h3⟩
        · exfalso
          rcases h with h | h | h | h
          · exact h h0
          · exact h h1
          · exact h h2
          · exact h h3
        · exact build 4 _ _ (Or.inr (Or.inr (Or.inr rfl))) (by simp [h0, h1, h2])
            (main_bot_fails w e h0 h1 h2 h3)
      · exact build 3 _ _ (Or.inr (Or.inr (Or.inl rfl))) (by simp [h0, h1, h2])
          (main_linkpearl_fails w e h0 h1 h2)
    · exact build 2 _ _ (Or.inr (Or.inl rfl)) (by simp [h0, h1]) (main_sql_fails w e h0 h1)
  · exact build 1 _ _ (Or.inl rfl) (by simp [h0]) (main_sentry_fails w e h0)

/-- A database that cannot be opened: `main` stops after `sql.Open`. -/
theorem init_failure_is_fatal_witness :
    ∃ n f a,
      n = 2
      ∧ main sqlFailsWorld
          = ⟨banner ++ (startup sampleConfig).take n ++ [.logFatal f a], .panicking (.fatal f a)⟩
      ∧ (∀ e ∈ (main sqlFailsWorld).trace, e.isLaterStep = false)
      ∧ (∀ sched, (run sqlFailsWorld sched).events
          <+: banner ++ (startup sampleConfig).take n
            ++ [.logFatal f a, .crash (.fatal f a)])
      ∧ (∀ sched, ∀ e ∈ (run sqlFailsWorld sched).events, e.isLaterStep = false) :=
  init_failure_is_fatal sqlFailsWorld (Or.inr (Or.inl (by decide)))

end cmd

end Postmoogle
